import Mathlib

/-!
Shallow embedding of the paginated search-result cache of
`buttercup/cogs/search.py` (the `SearchCache` class and the `Search` cog)
together with proofs about the claims of the specification.

Modelling conventions:
* Python `datetime` timestamps are modelled as `Nat` (only their ordering is
  ever used, for eviction).
* Discord message ids and user ids are modelled as `Nat`.
* The Python `dict` `SearchCache.cache` is modelled as an association list in
  insertion order; assignment to an existing key updates it in place,
  assignment to a fresh key appends.  `sorted` over the dict items is stable,
  so evicting `sorted(items, key=last_modified)[0]` removes the first entry
  in insertion order that attains the minimal `last_modified`; `oldestEntry`
  below computes exactly that entry.
* Python ints are modelled as `Int` where the source can produce negative
  intermediate values (page arithmetic) and as `Nat` for counts and sizes.
  Python `//` is floor division, i.e. `Int.fdiv`.
* The Blossom HTTP call is modelled as a function from the 1-based page
  number to a response (status code plus parsed JSON body); network effects
  are threaded explicitly.
* `raise BlossomException(response)` is modelled as a `failure` outcome
  carrying the status code and the parsed body, matching
  `BlossomException.__init__` in `buttercup/cogs/helpers.py` which stores
  `response.status_code` and `response.json()`.
-/

namespace Buttercup

/-- `math.ceil(a / b)` for non-negative integers, as used in
`math.ceil(response_data["count"] / self.discord_page_size)`. -/
def ceil_div (a b : Nat) : Nat := (a + b - 1) / b

/-- One record of `response_data["results"]`; the fields actually read by the
search cog are `text` and `url`. -/
structure TranscriptionResult where
  text : String
  url : String
deriving Repr, DecidableEq

/-- The parsed JSON body of a Blossom search response: `count` and `results`. -/
structure SearchResponse where
  count : Nat
  results : List TranscriptionResult
deriving Repr, DecidableEq

/-- `SearchCacheItem` from `search.py`. -/
structure SearchCacheItem where
  query : String
  cur_page : Int
  discord_user_id : Nat
  response_data : Option SearchResponse
  request_page : Int
deriving Repr, DecidableEq

/-- `SearchCacheEntry` from `search.py`: the stored value
`{"last_modified": time, "element": entry}`. -/
structure SearchCacheEntry where
  last_modified : Nat
  element : SearchCacheItem
deriving Repr, DecidableEq

/-- The `SearchCache` class: a capacity plus the dict contents in insertion
order. -/
structure SearchCache where
  capacity : Nat
  cache : List (Nat × SearchCacheEntry)
deriving Repr, DecidableEq

/-- Python dict assignment `self.cache[msg_id] = v`: overwrite in place if the
key is present, append otherwise. -/
def dictSet (l : List (Nat × SearchCacheEntry)) (k : Nat) (v : SearchCacheEntry) :
    List (Nat × SearchCacheEntry) :=
  if l.any (fun p => p.1 == k) then
    l.map (fun p => if p.1 == k then (k, v) else p)
  else
    l ++ [(k, v)]

/-- The entry removed by `_clean`: the first entry (in insertion order) with
minimal `last_modified`, i.e. `sorted(self.cache.items(), key=last_modified)[0]`
for a stable sort. -/
def oldestEntry : List (Nat × SearchCacheEntry) → Option (Nat × SearchCacheEntry)
  | [] => none
  | p :: rest =>
    match oldestEntry rest with
    | none => some p
    | some q => if q.2.last_modified < p.2.last_modified then some q else some p

/-- `SearchCache._clean`: if the capacity is exceeded, delete the oldest
entry. -/
def SearchCache.clean (c : SearchCache) : SearchCache :=
  if c.capacity < c.cache.length then
    match oldestEntry c.cache with
    | some p => { c with cache := c.cache.eraseP (fun q => q.1 == p.1) }
    | none => c
  else c

/-- `SearchCache.set` with an explicit `time` argument. -/
def SearchCache.set (c : SearchCache) (msg_id : Nat) (entry : SearchCacheItem)
    (time : Nat) : SearchCache :=
  SearchCache.clean
    { c with cache := dictSet c.cache msg_id { last_modified := time, element := entry } }

/-- `SearchCache.get`. -/
def SearchCache.get (c : SearchCache) (msg_id : Nat) : Option SearchCacheItem :=
  match c.cache.find? (fun p => p.1 == msg_id) with
  | some p => some p.2.element
  | none => none

/-- The full stored entry for a message id (used to observe `last_modified`). -/
def SearchCache.getEntry (c : SearchCache) (msg_id : Nat) : Option SearchCacheEntry :=
  (c.cache.find? (fun p => p.1 == msg_id)).map Prod.snd

/-- The value of the default-argument expression
`time: datetime = datetime.now(tz=pytz.utc)` in `SearchCache.set`.  Python
evaluates a default argument ONCE, when the `def` statement is executed at
class-definition (module import) time, and reuses that same value for every
later call that omits the argument.  We place module import at instant `0`
on the modelled timeline. -/
def default_set_time : Nat := 0

/-- A call `cache.set(msg_id, entry)` that omits the `time` argument, made
when the wall clock reads `now`.  Per Python default-argument semantics the
bound default `default_set_time` is used; the actual call time `now` is
ignored by the source. -/
def SearchCache.setOmittingTime (c : SearchCache) (msg_id : Nat)
    (entry : SearchCacheItem) (now : Nat) : SearchCache :=
  let _ := now
  c.set msg_id entry default_set_time

/-- `"⏮️"`, the first-page control emoji. -/
def first_page_emoji : String := "⏮️"

/-- `"◀️"`, the previous-page control emoji. -/
def previous_page_emoji : String := "◀️"

/-- `"▶️"`, the next-page control emoji. -/
def next_page_emoji : String := "▶️"

/-- `"⏭️"`, the last-page control emoji. -/
def last_page_emoji : String := "⏭️"

/-- `self.discord_page_size = 5`. -/
def discord_page_size : Nat := 5

/-- `self.request_page_size = self.discord_page_size * 5`. -/
def request_page_size : Nat := discord_page_size * 5

/-- `self.cache = SearchCache(10)`. -/
def cache_capacity : Nat := 10

/-- The cache as freshly constructed in `Search.__init__`. -/
def emptyCache : SearchCache := { capacity := cache_capacity, cache := [] }

/-- A Blossom HTTP response: status code and parsed JSON body. -/
structure FetchResponse where
  status_code : Nat
  data : SearchResponse
deriving Repr, DecidableEq

/-- The data rendered into the result message by `_search_from_cache`
(lines 257-299): the slice of results, the 1-based running indices passed to
`create_result_description`, the footer numbers, and the control emojis
attached afterwards. -/
structure PageRender where
  slice : List TranscriptionResult
  nums : List Int
  footer_cur_page : Int
  total_pages : Nat
  total_results : Nat
  controls : List String
deriving Repr, DecidableEq

/-- The observable outcome of one `_search_from_cache` call. -/
inductive StepOutput where
  | failure (status : Nat) (body : SearchResponse)
  | noResults
  | page (render : PageRender)
deriving Repr, DecidableEq

/-- The control emojis attached by a step (none for an exception or a
"no results" render). -/
def StepOutput.controls : StepOutput → List String
  | .page render => render.controls
  | _ => []

/-- Result of one `_search_from_cache` call: the cache afterwards, the list
of 1-based Blossom page numbers fetched during the call, and the outcome. -/
structure StepResult where
  cache : SearchCache
  fetch_calls : List Int
  output : StepOutput
deriving Repr, DecidableEq

/-- Line 216:
`request_page = (discord_page * self.discord_page_size) // self.request_page_size`
with `discord_page = cache_item["cur_page"] + page_mod`. -/
def target_request_page (cache_item : SearchCacheItem) (page_mod : Int) : Int :=
  ((cache_item.cur_page + page_mod) * (discord_page_size : Int)).fdiv
    (request_page_size : Int)

/-- Lines 218-235: obtain the effective response data, fetching from Blossom
when there is no cached response or the cached window does not match.  Returns
the response (or the raised `BlossomException`) together with the list of
1-based page numbers requested. -/
def effective_response (cache_item : SearchCacheItem) (page_mod : Int)
    (fetch : Int → FetchResponse) :
    Except (Nat × SearchResponse) SearchResponse × List Int :=
  if cache_item.response_data = none ∨
      target_request_page cache_item page_mod ≠ cache_item.request_page then
    if (fetch (target_request_page cache_item page_mod + 1)).status_code ≠ 200 then
      (.error ((fetch (target_request_page cache_item page_mod + 1)).status_code,
          (fetch (target_request_page cache_item page_mod + 1)).data),
        [target_request_page cache_item page_mod + 1])
    else
      (.ok (fetch (target_request_page cache_item page_mod + 1)).data,
        [target_request_page cache_item page_mod + 1])
  else
    (.ok (cache_item.response_data.getD { count := 0, results := [] }), [])

/-- Lines 257-264: the slice of the fetched window shown on Discord.
`request_offset = request_page * request_page_size`,
`discord_offset = discord_page * discord_page_size`,
`result_offset = discord_offset - request_offset`, then
`results[result_offset : result_offset + discord_page_size]`. -/
def page_slice (results : List TranscriptionResult)
    (discord_page request_page : Int) : List TranscriptionResult :=
  let request_offset := request_page * (request_page_size : Int)
  let discord_offset := discord_page * (discord_page_size : Int)
  let result_offset := discord_offset - request_offset
  (results.drop result_offset.toNat).take discord_page_size

/-- Line 268: item `i` of the slice is rendered with running index
`discord_offset + i + 1`. -/
def page_nums (len : Nat) (discord_page : Int) : List Int :=
  (List.range len).map
    (fun (i : Nat) => discord_page * (discord_page_size : Int) + (i : Int) + 1)

/-- Lines 237-299 of `_search_from_cache`, after the response data has been
obtained: the zero-result early return, the cache write, the slice
computation, the footer and the control emojis. -/
def render_step (cache : SearchCache) (msg_id : Nat) (cache_item : SearchCacheItem)
    (discord_page request_page : Int) (response_data : SearchResponse)
    (sent : List Int) (now : Nat) : StepResult :=
  if response_data.count = 0 then
    { cache := cache, fetch_calls := sent, output := .noResults }
  else
    let newItem : SearchCacheItem :=
      { query := cache_item.query
        cur_page := discord_page
        discord_user_id := cache_item.discord_user_id
        response_data := some response_data
        request_page := request_page }
    let cache' := cache.set msg_id newItem now
    let slice := page_slice response_data.results discord_page request_page
    let total_discord_pages := ceil_div response_data.count discord_page_size
    let controls :=
      (if 0 < discord_page then [first_page_emoji, previous_page_emoji] else []) ++
      (if discord_page < (total_discord_pages : Int) - 1 then
        [next_page_emoji, last_page_emoji] else [])
    { cache := cache'
      fetch_calls := sent
      output := .page
        { slice := slice
          nums := page_nums slice.length discord_page
          footer_cur_page := discord_page + 1
          total_pages := total_discord_pages
          total_results := response_data.count
          controls := controls } }

/-- `Search._search_from_cache`. -/
def search_from_cache (cache : SearchCache) (msg_id : Nat)
    (cache_item : SearchCacheItem) (page_mod : Int)
    (fetch : Int → FetchResponse) (now : Nat) : StepResult :=
  match effective_response cache_item page_mod fetch with
  | (.error e, sent) =>
    { cache := cache, fetch_calls := sent, output := .failure e.1 e.2 }
  | (.ok response_data, sent) =>
    render_step cache msg_id cache_item (cache_item.cur_page + page_mod)
      (target_request_page cache_item page_mod) response_data sent now

/-- Lines 321-328: the "simulated" initial cache item built locally by the
`search` slash command (never written to the cache at this point). -/
def initial_cache_item (query : String) (author_id : Nat) : SearchCacheItem :=
  { query := query
    cur_page := 0
    discord_user_id := author_id
    response_data := none
    request_page := 0 }

/-- `Search.search` (the `/search` slash command): build the initial cache
item and display the first page via `_search_from_cache` with `page_mod = 0`. -/
def search_command (cache : SearchCache) (msg_id : Nat) (query : String)
    (author_id : Nat) (fetch : Int → FetchResponse) (now : Nat) : StepResult :=
  search_from_cache cache msg_id (initial_cache_item query author_id) 0 fetch now

/-- Lines 349-352 of `on_reaction_add`: the last display page, computed from
the cached response when present (`0` when no response is cached). -/
def reaction_last_page (cache_item : SearchCacheItem) : Int :=
  match cache_item.response_data with
  | some response_data =>
    (ceil_div response_data.count discord_page_size : Int) - 1
  | none => 0

/-- Lines 354-365 of `on_reaction_add`: which page delta a control emoji
requests, or `none` when the control is invalid or not currently offered. -/
def reaction_page_mod (cache_item : SearchCacheItem) (emoji : String) :
    Option Int :=
  if emoji = first_page_emoji ∧ 0 < cache_item.cur_page then
    some (-cache_item.cur_page)
  else if emoji = previous_page_emoji ∧ 0 < cache_item.cur_page then
    some (-1)
  else if emoji = next_page_emoji ∧
      cache_item.cur_page < reaction_last_page cache_item then
    some 1
  else if emoji = last_page_emoji ∧
      cache_item.cur_page < reaction_last_page cache_item then
    some (reaction_last_page cache_item - cache_item.cur_page)
  else none

/-- `Search.on_reaction_add`: returns the cache afterwards, and the step
result when a page change was executed (`none` when the event was ignored:
unknown message, foreign user, or invalid/unavailable control). -/
def on_reaction_add (cache : SearchCache) (msg_id : Nat) (emoji : String)
    (user_id : Nat) (fetch : Int → FetchResponse) (now : Nat) :
    SearchCache × Option StepResult :=
  match cache.get msg_id with
  | none => (cache, none)
  | some cache_item =>
    if cache_item.discord_user_id ≠ user_id then (cache, none)
    else
      match reaction_page_mod cache_item emoji with
      | none => (cache, none)
      | some page_mod =>
        let r := search_from_cache cache msg_id cache_item page_mod fetch now
        (r.cache, some r)

/-- A fixed cache item used where the entry contents are irrelevant (the
eviction logic only inspects keys and `last_modified`). -/
def dummy_item : SearchCacheItem :=
  { query := ""
    cur_page := 0
    discord_user_id := 0
    response_data := none
    request_page := 0 }

/-- A sequence of `SearchCache.set` calls `(msg_id, entry, time)`, executed
left to right. -/
def runSets (c : SearchCache) (sets : List (Nat × SearchCacheItem × Nat)) :
    SearchCache :=
  sets.foldl (fun acc s => acc.set s.1 s.2.1 s.2.2) c

/-- `(key, time)` turned into a `set` call inserting `dummy_item`. -/
def toSetCall (q : Nat × Nat) : Nat × SearchCacheItem × Nat := (q.1, dummy_item, q.2)

/-- `(key, time)` turned into the stored dict entry. -/
def toEntry (q : Nat × Nat) : Nat × SearchCacheEntry :=
  (q.1, { last_modified := q.2, element := dummy_item })

/-- One externally triggered operation on the `Search` cog: either a
`/search` submission or a reaction event.  Each operation carries the
response the Blossom API would return if the operation fetches, and the
wall-clock time of the operation. -/
inductive Op where
  | search (msg_id : Nat) (query : String) (author_id : Nat)
      (resp : FetchResponse) (now : Nat)
  | reaction (msg_id : Nat) (emoji : String) (user_id : Nat)
      (resp : FetchResponse) (now : Nat)
deriving Repr

/-- The Blossom response an operation would receive. -/
def Op.response : Op → FetchResponse
  | .search _ _ _ resp _ => resp
  | .reaction _ _ _ resp _ => resp

/-- Execute one operation against the cache, keeping only the cache state. -/
def applyOp (cache : SearchCache) : Op → SearchCache
  | .search msg_id query author_id resp now =>
    (search_command cache msg_id query author_id (fun _ => resp) now).cache
  | .reaction msg_id emoji user_id resp now =>
    (on_reaction_add cache msg_id emoji user_id (fun _ => resp) now).1

/-- Execute a sequence of operations starting from the given cache. -/
def runOps (cache : SearchCache) (ops : List Op) : SearchCache :=
  ops.foldl applyOp cache

/-- Blossom oracle for the end-to-end pagination example of the spec:
every fetch succeeds with 100 total results. -/
def c1_fetch : Int → FetchResponse := fun _ =>
  { status_code := 200, data := { count := 100, results := [] } }

/-- The initial `/search hello` submission of the end-to-end example. -/
def c1_step0 : StepResult := search_command emptyCache 1 "hello" 42 c1_fetch 0

/-- The requester clicks the "next" control on the result message. -/
def c1_press (c : SearchCache) : SearchCache × Option StepResult :=
  on_reaction_add c 1 next_page_emoji 42 c1_fetch 0

/-- State after the 1st "next" click. -/
def c1_s1 : SearchCache × Option StepResult := c1_press c1_step0.cache

/-- State after the 2nd "next" click. -/
def c1_s2 : SearchCache × Option StepResult := c1_press c1_s1.1

/-- State after the 3rd "next" click. -/
def c1_s3 : SearchCache × Option StepResult := c1_press c1_s2.1

/-- State after the 4th "next" click. -/
def c1_s4 : SearchCache × Option StepResult := c1_press c1_s3.1

/-- State after the 5th "next" click. -/
def c1_s5 : SearchCache × Option StepResult := c1_press c1_s4.1

/-- Blossom oracle used for the initial-submission scenario: a successful
response with 7 results. -/
def c7_fetch : Int → FetchResponse := fun _ =>
  { status_code := 200, data := { count := 7, results := [] } }

/-- First Blossom answer of the shrinking-dataset scenario: 100 results. -/
def c8_resp_a : FetchResponse :=
  { status_code := 200, data := { count := 100, results := [] } }

/-- Second Blossom answer of the shrinking-dataset scenario: only 6 results
remain. -/
def c8_resp_b : FetchResponse :=
  { status_code := 200, data := { count := 6, results := [] } }

/-- Shrinking-dataset scenario: submit a query while 100 results exist, then
jump to the last page while only 6 results remain. -/
def c8_ops : List Op :=
  [.search 1 "q" 42 c8_resp_a 0, .reaction 1 last_page_emoji 42 c8_resp_b 1]

/-- The slice start as specified:
`targetDisplayPage * displayPageSize - floor(targetDisplayPage * displayPageSize / fetchPageSize) * fetchPageSize`,
over arbitrary page sizes. -/
def slice_start (dps rps d : Int) : Int :=
  d * dps - ((d * dps).fdiv rps) * rps

/-- The invariant claimed for a stored cache entry under a remote dataset of
stable total count `N`: the cached response is present with count `N ≥ 1` and
the current display page lies within `[0, ceil(N / displayPageSize) - 1]`. -/
def entry_ok (N : Nat) (e : SearchCacheEntry) : Prop :=
  e.element.response_data.map SearchResponse.count = some N ∧
  1 ≤ N ∧
  0 ≤ e.element.cur_page ∧
  e.element.cur_page ≤ (ceil_div N discord_page_size : Int) - 1

/-- Every entry of the cache satisfies `entry_ok`. -/
def cache_ok (N : Nat) (c : SearchCache) : Prop :=
  ∀ k e, (k, e) ∈ c.cache → entry_ok N e

/-! ### Basic lemmas about the controller -/

theorem render_step_fetch_calls (cache : SearchCache) (msg_id : Nat)
    (cache_item : SearchCacheItem) (discord_page request_page : Int)
    (response_data : SearchResponse) (sent : List Int) (now : Nat) :
    (render_step cache msg_id cache_item discord_page request_page response_data
      sent now).fetch_calls = sent := by
  unfold render_step
  split <;> rfl

theorem render_step_cache_of_zero (cache : SearchCache) (msg_id : Nat)
    (cache_item : SearchCacheItem) (discord_page request_page : Int)
    (response_data : SearchResponse) (sent : List Int) (now : Nat)
    (h : response_data.count = 0) :
    render_step cache msg_id cache_item discord_page request_page response_data
      sent now = { cache := cache, fetch_calls := sent, output := .noResults } := by
  unfold render_step
  rw [if_pos h]

theorem render_step_cache_of_ne_zero (cache : SearchCache) (msg_id : Nat)
    (cache_item : SearchCacheItem) (discord_page request_page : Int)
    (response_data : SearchResponse) (sent : List Int) (now : Nat)
    (h : response_data.count ≠ 0) :
    (render_step cache msg_id cache_item discord_page request_page response_data
        sent now).cache =
      cache.set msg_id
        { query := cache_item.query
          cur_page := discord_page
          discord_user_id := cache_item.discord_user_id
          response_data := some response_data
          request_page := request_page } now := by
  unfold render_step
  rw [if_neg h]

theorem dictSet_length_le (l : List (Nat × SearchCacheEntry)) (k : Nat)
    (v : SearchCacheEntry) : (dictSet l k v).length ≤ l.length + 1 := by
  unfold dictSet
  split
  · simp
  · simp

theorem find?_dictSet (l : List (Nat × SearchCacheEntry)) (k : Nat)
    (v : SearchCacheEntry) :
    (dictSet l k v).find? (fun p => p.1 == k) = some (k, v) := by
  induction l with
  | nil => simp [dictSet, List.find?]
  | cons q t ih =>
    by_cases hq : q.1 = k
    · have hany : (q :: t).any (fun p => p.1 == k) = true := by simp [hq]
      unfold dictSet
      rw [if_pos hany]
      simp [List.find?, hq]
    · unfold dictSet
      by_cases hat : t.any (fun p => p.1 == k) = true
      · have hany : (q :: t).any (fun p => p.1 == k) = true := by simp [hat]
        rw [if_pos hany]
        simp only [List.map_cons]
        rw [if_neg (by simp [hq])]
        rw [List.find?_cons_of_neg _ (by simp [hq])]
        have hmap : dictSet t k v =
            t.map (fun p => if p.1 == k then (k, v) else p) := by
          unfold dictSet
          rw [if_pos hat]
        rw [← hmap]
        exact ih
      · have hany : ¬((q :: t).any (fun p => p.1 == k) = true) := by
          simp only [List.any_cons, Bool.or_eq_true]
          push_neg
          exact ⟨by simp [hq], by simpa using hat⟩
        rw [if_neg hany]
        rw [List.cons_append]
        rw [List.find?_cons_of_neg _ (by simp [hq])]
        have happ : dictSet t k v = t ++ [(k, v)] := by
          unfold dictSet
          rw [if_neg hat]
        rw [← happ]
        exact ih

theorem clean_of_le {c : SearchCache} (h : c.cache.length ≤ c.capacity) :
    c.clean = c := by
  unfold SearchCache.clean
  rw [if_neg (by omega)]

theorem set_capacity (c : SearchCache) (k : Nat) (e : SearchCacheItem)
    (t : Nat) : (c.set k e t).capacity = c.capacity := by
  unfold SearchCache.set SearchCache.clean
  split
  · split <;> rfl
  · rfl

theorem set_get_self {c : SearchCache} (k : Nat) (e : SearchCacheItem) (t : Nat)
    (h : c.cache.length < c.capacity) :
    (c.set k e t).get k = some e := by
  unfold SearchCache.set
  have hlen := dictSet_length_le c.cache k { last_modified := t, element := e }
  rw [clean_of_le (by simpa using by omega : (SearchCache.mk c.capacity
    (dictSet c.cache k { last_modified := t, element := e })).cache.length ≤
      (SearchCache.mk c.capacity
        (dictSet c.cache k { last_modified := t, element := e })).capacity)]
  unfold SearchCache.get
  rw [find?_dictSet]

theorem oldestEntry_cons_none {q : Nat × SearchCacheEntry}
    {t : List (Nat × SearchCacheEntry)} (ht : oldestEntry t = none) :
    oldestEntry (q :: t) = some q := by
  unfold oldestEntry
  rw [ht]

theorem oldestEntry_cons_some {q r : Nat × SearchCacheEntry}
    {t : List (Nat × SearchCacheEntry)} (ht : oldestEntry t = some r) :
    oldestEntry (q :: t) =
      if r.2.last_modified < q.2.last_modified then some r else some q := by
  unfold oldestEntry
  rw [ht]

theorem oldestEntry_mem :
    ∀ {l : List (Nat × SearchCacheEntry)} {p : Nat × SearchCacheEntry},
      oldestEntry l = some p → p ∈ l := by
  intro l
  induction l with
  | nil => intro p h; cases h
  | cons q t ih =>
    intro p h
    cases ht : oldestEntry t with
    | none =>
      rw [oldestEntry_cons_none ht] at h
      cases h
      exact List.mem_cons_self q t
    | some r =>
      rw [oldestEntry_cons_some ht] at h
      by_cases hc : r.2.last_modified < q.2.last_modified
      · rw [if_pos hc] at h
        cases h
        exact List.mem_cons_of_mem q (ih ht)
      · rw [if_neg hc] at h
        cases h
        exact List.mem_cons_self q t

theorem oldestEntry_isSome (q : Nat × SearchCacheEntry)
    (t : List (Nat × SearchCacheEntry)) :
    (oldestEntry (q :: t)).isSome = true := by
  cases ht : oldestEntry t with
  | none => rw [oldestEntry_cons_none ht]; rfl
  | some r =>
    rw [oldestEntry_cons_some ht]
    split <;> rfl

theorem oldestEntry_eq_none {l : List (Nat × SearchCacheEntry)}
    (h : oldestEntry l = none) : l = [] := by
  cases l with
  | nil => rfl
  | cons q t =>
    have hs := oldestEntry_isSome q t
    rw [h] at hs
    cases hs

theorem oldestEntry_head {e : Nat × SearchCacheEntry}
    {t : List (Nat × SearchCacheEntry)}
    (h : ∀ x ∈ t, e.2.last_modified < x.2.last_modified) :
    oldestEntry (e :: t) = some e := by
  cases ht : oldestEntry t with
  | none => exact oldestEntry_cons_none ht
  | some r =>
    have hr : r ∈ t := oldestEntry_mem ht
    rw [oldestEntry_cons_some ht, if_neg]
    have := h r hr
    omega

theorem clean_length {c : SearchCache} (h : c.cache.length ≤ c.capacity + 1) :
    c.clean.cache.length ≤ c.capacity := by
  unfold SearchCache.clean
  split
  case isTrue hlt =>
    cases ho : oldestEntry c.cache with
    | none =>
      rw [oldestEntry_eq_none ho] at hlt
      simp at hlt
    | some p =>
      have hp : p ∈ c.cache := oldestEntry_mem ho
      have herase : (c.cache.eraseP (fun x => x.1 == p.1)).length =
          c.cache.length - 1 :=
        List.length_eraseP_of_mem hp (by simp)
      show (c.cache.eraseP (fun x => x.1 == p.1)).length ≤ c.capacity
      omega
  case isFalse hge => omega

theorem set_length {c : SearchCache} (k : Nat) (e : SearchCacheItem) (tm : Nat)
    (h : c.cache.length ≤ c.capacity) :
    (c.set k e tm).cache.length ≤ c.capacity := by
  unfold SearchCache.set
  refine clean_length ?_
  show (dictSet c.cache k { last_modified := tm, element := e }).length ≤
    c.capacity + 1
  have := dictSet_length_le c.cache k { last_modified := tm, element := e }
  omega

theorem dictSet_fresh {l : List (Nat × SearchCacheEntry)} {k : Nat}
    {v : SearchCacheEntry} (h : ∀ p ∈ l, p.1 ≠ k) :
    dictSet l k v = l ++ [(k, v)] := by
  unfold dictSet
  rw [if_neg]
  simp only [List.any_eq_true, beq_iff_eq, not_exists]
  intro p
  rw [not_and]
  exact h p

theorem runSets_append (c : SearchCache)
    (a b : List (Nat × SearchCacheItem × Nat)) :
    runSets c (a ++ b) = runSets (runSets c a) b := by
  simp [runSets, List.foldl_append]

theorem runSets_fresh :
    ∀ (M : List (Nat × Nat)) (c : SearchCache),
      (c.cache.map Prod.fst ++ M.map Prod.fst).Nodup →
      c.cache.length + M.length ≤ c.capacity →
      runSets c (M.map toSetCall) =
        SearchCache.mk c.capacity (c.cache ++ M.map toEntry) := by
  intro M
  induction M with
  | nil =>
    intro c h1 h2
    simp [runSets]
  | cons q M ih =>
    intro c h1 h2
    have h1' : (c.cache.map Prod.fst ++ (q.1 :: M.map Prod.fst)).Nodup := by
      simpa using h1
    have hfresh : ∀ p ∈ c.cache, p.1 ≠ q.1 := by
      intro p hp hpq
      have hdisj := (List.nodup_append.mp h1').2.2
      exact hdisj (List.mem_map_of_mem Prod.fst hp)
        (hpq ▸ List.mem_cons_self q.1 (M.map Prod.fst))
    have hset : c.set q.1 dummy_item q.2 =
        SearchCache.mk c.capacity (c.cache ++ [toEntry q]) := by
      unfold SearchCache.set
      rw [dictSet_fresh hfresh]
      refine clean_of_le ?_
      show (c.cache ++ [toEntry q]).length ≤ c.capacity
      simp only [List.length_append, List.length_singleton]
      have : (q :: M).length = M.length + 1 := rfl
      omega
    have hlen2 : (SearchCache.mk c.capacity (c.cache ++ [toEntry q])).cache.length +
        M.length ≤ (SearchCache.mk c.capacity (c.cache ++ [toEntry q])).capacity := by
      show (c.cache ++ [toEntry q]).length + M.length ≤ c.capacity
      simp only [List.length_append, List.length_singleton]
      have : (q :: M).length = M.length + 1 := rfl
      omega
    have hnodup2 : ((SearchCache.mk c.capacity
          (c.cache ++ [toEntry q])).cache.map Prod.fst ++ M.map Prod.fst).Nodup := by
      show ((c.cache ++ [toEntry q]).map Prod.fst ++ M.map Prod.fst).Nodup
      have : (c.cache ++ [toEntry q]).map Prod.fst ++ M.map Prod.fst =
          c.cache.map Prod.fst ++ (q.1 :: M.map Prod.fst) := by
        simp [toEntry, List.map_append, List.append_assoc]
      rw [this]
      exact h1'
    show runSets (c.set q.1 dummy_item q.2) (M.map toSetCall) = _
    rw [hset, ih _ hnodup2 hlen2]
    show SearchCache.mk c.capacity ((c.cache ++ [toEntry q]) ++ M.map toEntry) = _
    simp [List.append_assoc]

theorem get_toEntry_of_not_mem {cap : Nat} {l : List (Nat × Nat)} {k : Nat}
    (h : k ∉ l.map Prod.fst) :
    (SearchCache.mk cap (l.map toEntry)).get k = none := by
  have hfind : (l.map toEntry).find? (fun p => p.1 == k) = none := by
    rw [List.find?_eq_none]
    intro x hx
    obtain ⟨y, hy, rfl⟩ := List.mem_map.mp hx
    simp only [toEntry, beq_iff_eq]
    intro hyk
    apply h
    rw [← hyk]
    exact List.mem_map_of_mem Prod.fst hy
  unfold SearchCache.get
  rw [hfind]

theorem get_toEntry_of_mem {cap : Nat} {k : Nat} :
    ∀ {l : List (Nat × Nat)}, k ∈ l.map Prod.fst →
      (SearchCache.mk cap (l.map toEntry)).get k = some dummy_item := by
  intro l
  induction l with
  | nil => intro h; cases h
  | cons q t ih =>
    intro h
    by_cases hk : q.1 = k
    · unfold SearchCache.get
      simp only [List.map_cons]
      rw [List.find?_cons_of_pos _ (by simp [toEntry, hk])]
      rfl
    · have hk' : k ∈ t.map Prod.fst := by
        rw [List.map_cons] at h
        rcases List.mem_cons.mp h with h1 | h1
        · exact absurd h1.symm hk
        · exact h1
      have := ih hk'
      unfold SearchCache.get at this ⊢
      simp only [List.map_cons]
      rw [List.find?_cons_of_neg _ (by simp [toEntry, hk])]
      exact this

theorem effective_response_cached {cache_item : SearchCacheItem} {page_mod : Int}
    (fetch : Int → FetchResponse) {r : SearchResponse}
    (hr : cache_item.response_data = some r)
    (heq : target_request_page cache_item page_mod = cache_item.request_page) :
    effective_response cache_item page_mod fetch = (.ok r, []) := by
  have hcond : ¬(cache_item.response_data = none ∨
      target_request_page cache_item page_mod ≠ cache_item.request_page) := by
    push_neg
    exact ⟨by simp [hr], heq⟩
  unfold effective_response
  rw [if_neg hcond, hr]
  rfl

theorem mem_dictSet {l : List (Nat × SearchCacheEntry)} {k : Nat}
    {v : SearchCacheEntry} {x : Nat × SearchCacheEntry}
    (hx : x ∈ dictSet l k v) : x = (k, v) ∨ x ∈ l := by
  unfold dictSet at hx
  split at hx
  · obtain ⟨y, hy, hxy⟩ := List.mem_map.mp hx
    by_cases hk : (y.1 == k) = true
    · rw [if_pos hk] at hxy
      exact Or.inl hxy.symm
    · rw [if_neg hk] at hxy
      exact Or.inr (hxy ▸ hy)
  · rcases List.mem_append.mp hx with h | h
    · exact Or.inr h
    · exact Or.inl (List.mem_singleton.mp h)

theorem mem_clean {c : SearchCache} {x : Nat × SearchCacheEntry}
    (hx : x ∈ c.clean.cache) : x ∈ c.cache := by
  by_cases hlt : c.capacity < c.cache.length
  · cases ho : oldestEntry c.cache with
    | none =>
      have hcl : c.clean = c := by
        unfold SearchCache.clean
        rw [if_pos hlt, ho]
      rwa [hcl] at hx
    | some p =>
      have hcl : c.clean.cache = c.cache.eraseP (fun y => y.1 == p.1) := by
        unfold SearchCache.clean
        rw [if_pos hlt, ho]
      rw [hcl] at hx
      exact List.mem_of_mem_eraseP hx
  · have hcl : c.clean = c := by
      unfold SearchCache.clean
      rw [if_neg hlt]
    rwa [hcl] at hx

theorem cache_ok_set {N : Nat} {c : SearchCache} {k : Nat}
    {item : SearchCacheItem} {tm : Nat}
    (hc : cache_ok N c)
    (he : entry_ok N { last_modified := tm, element := item }) :
    cache_ok N (c.set k item tm) := by
  intro k' e' hmem
  unfold SearchCache.set at hmem
  have hmem2 := mem_clean hmem
  rcases mem_dictSet hmem2 with h | h
  · have h2 : e' = { last_modified := tm, element := item } :=
      congrArg Prod.snd h
    rw [h2]
    exact he
  · exact hc k' e' h

theorem get_mem {c : SearchCache} {k : Nat} {item : SearchCacheItem}
    (h : c.get k = some item) :
    ∃ tm, (k, { last_modified := tm, element := item }) ∈ c.cache := by
  unfold SearchCache.get at h
  cases hf : c.cache.find? (fun p => p.1 == k) with
  | none =>
    rw [hf] at h
    cases h
  | some p =>
    rw [hf] at h
    have h2 : some p.2.element = some item := h
    have helem : p.2.element = item := by injection h2
    have hp : p ∈ c.cache := List.mem_of_find?_eq_some hf
    have hpk : p.1 = k := by
      have := List.find?_some hf
      simpa using this
    refine ⟨p.2.last_modified, ?_⟩
    have hpe : p = (k, { last_modified := p.2.last_modified, element := item }) := by
      cases p with
      | mk a b =>
        cases b with
        | mk lm el =>
          simp only at hpk helem
          rw [hpk, helem]
    rwa [hpe] at hp

theorem render_step_cache_ok {N : Nat} {cache : SearchCache} {msg_id : Nat}
    {cache_item : SearchCacheItem} {discord_page request_page : Int}
    {response_data : SearchResponse} {sent : List Int} {now : Nat}
    (hc : cache_ok N cache)
    (hr : response_data.count = N)
    (h0 : 0 ≤ discord_page)
    (h1 : discord_page = 0 ∨
      discord_page ≤ (ceil_div N discord_page_size : Int) - 1) :
    cache_ok N (render_step cache msg_id cache_item discord_page request_page
      response_data sent now).cache := by
  by_cases hz : response_data.count = 0
  · rw [render_step_cache_of_zero _ _ _ _ _ _ _ _ hz]
    exact hc
  · rw [render_step_cache_of_ne_zero _ _ _ _ _ _ _ _ hz]
    apply cache_ok_set hc
    have hN1 : 1 ≤ N := by omega
    refine ⟨?_, hN1, ?_, ?_⟩
    · show (some response_data).map SearchResponse.count = some N
      simp [hr]
    · show (0 : Int) ≤ discord_page
      exact h0
    · show discord_page ≤ (ceil_div N discord_page_size : Int) - 1
      rcases h1 with h1 | h1
      · rw [h1]
        have hcd : 1 ≤ ceil_div N discord_page_size := by
          unfold ceil_div discord_page_size
          omega
        omega
      · exact h1

theorem on_reaction_add_none {cache : SearchCache} {msg_id : Nat}
    {emoji : String} {user_id : Nat} {fetch : Int → FetchResponse} {now : Nat}
    (hget : cache.get msg_id = none) :
    on_reaction_add cache msg_id emoji user_id fetch now = (cache, none) := by
  unfold on_reaction_add
  rw [hget]

theorem on_reaction_add_some {cache : SearchCache} {msg_id : Nat}
    {emoji : String} {user_id : Nat} {fetch : Int → FetchResponse} {now : Nat}
    {item : SearchCacheItem} (hget : cache.get msg_id = some item) :
    on_reaction_add cache msg_id emoji user_id fetch now =
      if item.discord_user_id ≠ user_id then (cache, none)
      else
        match reaction_page_mod item emoji with
        | none => (cache, none)
        | some page_mod =>
          ((search_from_cache cache msg_id item page_mod fetch now).cache,
            some (search_from_cache cache msg_id item page_mod fetch now)) := by
  unfold on_reaction_add
  rw [hget]

theorem step_cache_ok {N : Nat} {cache : SearchCache} {msg_id : Nat}
    {cache_item : SearchCacheItem} {page_mod : Int}
    {fetch : Int → FetchResponse} {now : Nat}
    (hc : cache_ok N cache)
    (hf : ∀ p, (fetch p).status_code = 200 → (fetch p).data.count = N)
    (hi : ∀ r, cache_item.response_data = some r → r.count = N)
    (h0 : 0 ≤ cache_item.cur_page + page_mod)
    (h1 : cache_item.cur_page + page_mod = 0 ∨
      cache_item.cur_page + page_mod ≤
        (ceil_div N discord_page_size : Int) - 1) :
    cache_ok N
      (search_from_cache cache msg_id cache_item page_mod fetch now).cache := by
  unfold search_from_cache effective_response
  by_cases hcond : cache_item.response_data = none ∨
      target_request_page cache_item page_mod ≠ cache_item.request_page
  · rw [if_pos hcond]
    by_cases hstat :
        (fetch (target_request_page cache_item page_mod + 1)).status_code ≠ 200
    · rw [if_pos hstat]
      exact hc
    · rw [if_neg hstat]
      push_neg at hstat
      exact render_step_cache_ok hc (hf _ hstat) h0 h1
  · rw [if_neg hcond]
    push_neg at hcond
    obtain ⟨hsome, heq⟩ := hcond
    cases hrd : cache_item.response_data with
    | none => exact absurd hrd hsome
    | some r =>
      exact render_step_cache_ok hc (hi r hrd) h0 h1

theorem applyOp_cache_ok {N : Nat} {c : SearchCache} {op : Op}
    (hc : cache_ok N c)
    (hop : (Op.response op).status_code = 200 →
      (Op.response op).data.count = N) :
    cache_ok N (applyOp c op) := by
  cases op with
  | search msg_id query author_id resp now =>
    show cache_ok N
      (search_command c msg_id query author_id (fun _ => resp) now).cache
    unfold search_command
    apply step_cache_ok hc
    · intro p h
      exact hop h
    · intro r h
      simp [initial_cache_item] at h
    · simp [initial_cache_item]
    · left
      simp [initial_cache_item]
  | reaction msg_id emoji user_id resp now =>
    show cache_ok N
      (on_reaction_add c msg_id emoji user_id (fun _ => resp) now).1
    cases hg : c.get msg_id with
    | none =>
      rw [on_reaction_add_none hg]
      exact hc
    | some item =>
      rw [on_reaction_add_some hg]
      by_cases hu : item.discord_user_id ≠ user_id
      · rw [if_pos hu]
        exact hc
      · rw [if_neg hu]
        obtain ⟨tm, hmem⟩ := get_mem hg
        obtain ⟨hresp, hN1, hp0, hpu⟩ := hc msg_id _ hmem
        cases hrd : item.response_data with
        | none =>
          rw [hrd] at hresp
          cases hresp
        | some r =>
          rw [hrd] at hresp
          have hrN : r.count = N := by
            simpa using hresp
          have hlp : reaction_last_page item =
              (ceil_div N discord_page_size : Int) - 1 := by
            unfold reaction_last_page
            rw [hrd]
            show (ceil_div r.count discord_page_size : Int) - 1 = _
            rw [hrN]
          cases hpm : reaction_page_mod item emoji with
          | none =>
            exact hc
          | some pm =>
            show cache_ok N
              (search_from_cache c msg_id item pm (fun _ => resp) now).cache
            have hbounds : 0 ≤ item.cur_page + pm ∧
                (item.cur_page + pm = 0 ∨ item.cur_page + pm ≤
                  (ceil_div N discord_page_size : Int) - 1) := by
              unfold reaction_page_mod at hpm
              rw [hlp] at hpm
              simp only at hpu hp0
              split_ifs at hpm with hif1 hif2 hif3 hif4
              · injection hpm with hpm2
                rw [← hpm2]
                constructor
                · omega
                · left
                  omega
              · injection hpm with hpm2
                rw [← hpm2]
                constructor
                · omega
                · right
                  omega
              · injection hpm with hpm2
                rw [← hpm2]
                constructor
                · omega
                · right
                  omega
              · injection hpm with hpm2
                rw [← hpm2]
                constructor
                · omega
                · right
                  omega
            refine step_cache_ok hc ?_ ?_ hbounds.1 hbounds.2
            · intro p h
              exact hop h
            · intro r2 h2
              rw [hrd] at h2
              have : r2 = r := by injection h2 with h3; exact h3.symm
              rw [this]
              exact hrN

theorem runOps_cache_ok {N : Nat} :
    ∀ (ops : List Op) (c : SearchCache),
      cache_ok N c →
      (∀ op ∈ ops, (Op.response op).status_code = 200 →
        (Op.response op).data.count = N) →
      cache_ok N (runOps c ops) := by
  intro ops
  induction ops with
  | nil =>
    intro c hc _
    exact hc
  | cons op rest ih =>
    intro c hc hops
    show cache_ok N (runOps (applyOp c op) rest)
    refine ih _ ?_ ?_
    · exact applyOp_cache_ok hc (hops op (List.mem_cons_self _ _))
    · intro o ho
      exact hops o (List.mem_cons_of_mem _ ho)

/-! ### Claim theorems -/

/-- Claim C5: if the remote fetch issued during a pagination step returns a
non-success status, the step raises a `BlossomException` carrying the status
and body, and the cache is left completely unchanged (the whole step result
is the untouched cache, the single failed fetch call, and the failure
outcome). -/
theorem claim_C5 (cache : SearchCache) (msg_id : Nat)
    (cache_item : SearchCacheItem) (page_mod : Int)
    (fetch : Int → FetchResponse) (now : Nat)
    (hneed : cache_item.response_data = none ∨
      target_request_page cache_item page_mod ≠ cache_item.request_page)
    (hfail : (fetch (target_request_page cache_item page_mod + 1)).status_code ≠ 200) :
    search_from_cache cache msg_id cache_item page_mod fetch now =
      { cache := cache
        fetch_calls := [target_request_page cache_item page_mod + 1]
        output := .failure
          (fetch (target_request_page cache_item page_mod + 1)).status_code
          (fetch (target_request_page cache_item page_mod + 1)).data } := by
  have he : effective_response cache_item page_mod fetch =
      (.error ((fetch (target_request_page cache_item page_mod + 1)).status_code,
          (fetch (target_request_page cache_item page_mod + 1)).data),
        [target_request_page cache_item page_mod + 1]) := by
    unfold effective_response
    rw [if_pos hneed, if_pos hfail]
  unfold search_from_cache
  rw [he]

/-- Witness for C5 at a concrete input: a fresh cache item forces a fetch,
the Blossom oracle answers 500, and the step propagates the failure with the
cache untouched. -/
theorem claim_C5_witness :
    search_from_cache emptyCache 1 (initial_cache_item "hello" 42) 0
        (fun _ => { status_code := 500, data := { count := 0, results := [] } }) 0 =
      { cache := emptyCache
        fetch_calls := [1]
        output := .failure 500 { count := 0, results := [] } } :=
  claim_C5 emptyCache 1 (initial_cache_item "hello" 42) 0
    (fun _ => { status_code := 500, data := { count := 0, results := [] } }) 0
    (Or.inl rfl) (by decide)

/-- Claim C9: when the pagination step's fetch (or reused cached response)
yields `totalCount == 0`, the step renders the "no results" view, performs no
cache write (the cache state is returned unchanged), and attaches no
navigation controls. -/
theorem claim_C9 (cache : SearchCache) (msg_id : Nat)
    (cache_item : SearchCacheItem) (page_mod : Int)
    (fetch : Int → FetchResponse) (now : Nat)
    (r : SearchResponse) (sent : List Int)
    (hresp : effective_response cache_item page_mod fetch = (.ok r, sent))
    (hzero : r.count = 0) :
    search_from_cache cache msg_id cache_item page_mod fetch now =
      { cache := cache, fetch_calls := sent, output := .noResults } ∧
    (search_from_cache cache msg_id cache_item page_mod fetch now).output.controls =
      [] := by
  have h : search_from_cache cache msg_id cache_item page_mod fetch now =
      { cache := cache, fetch_calls := sent, output := .noResults } := by
    unfold search_from_cache
    rw [hresp]
    exact render_step_cache_of_zero _ _ _ _ _ _ _ _ hzero
  exact ⟨h, by rw [h]; rfl⟩

/-- Witness for C9 at a concrete input: a fresh query whose fetch succeeds
with zero results. -/
theorem claim_C9_witness :
    search_from_cache emptyCache 1 (initial_cache_item "hello" 42) 0
        (fun _ => { status_code := 200, data := { count := 0, results := [] } }) 0 =
      { cache := emptyCache, fetch_calls := [1], output := .noResults } ∧
    (search_from_cache emptyCache 1 (initial_cache_item "hello" 42) 0
        (fun _ => { status_code := 200, data := { count := 0, results := [] } })
        0).output.controls = [] :=
  claim_C9 emptyCache 1 (initial_cache_item "hello" 42) 0
    (fun _ => { status_code := 200, data := { count := 0, results := [] } }) 0
    { count := 0, results := [] } [1] rfl rfl

/-- Claim C10: a reaction event on a cached result message whose actor is not
the stored requester is ignored completely: the cache is unchanged and no
step (hence no message edit) is executed. -/
theorem claim_C10 (cache : SearchCache) (msg_id : Nat) (emoji : String)
    (user_id : Nat) (fetch : Int → FetchResponse) (now : Nat)
    (cache_item : SearchCacheItem)
    (hget : cache.get msg_id = some cache_item)
    (huser : cache_item.discord_user_id ≠ user_id) :
    on_reaction_add cache msg_id emoji user_id fetch now = (cache, none) := by
  unfold on_reaction_add
  rw [hget]
  exact if_pos huser

/-- Witness for C10 at a concrete input: user 7 reacts on a message owned by
user 42. -/
theorem claim_C10_witness :
    on_reaction_add
        { capacity := cache_capacity
          cache := [(1, { last_modified := 0, element := dummy_item })] }
        1 "▶️" 7 c1_fetch 0 =
      ({ capacity := cache_capacity
         cache := [(1, { last_modified := 0, element := dummy_item })] }, none) :=
  claim_C10 _ 1 "▶️" 7 c1_fetch 0 dummy_item (by decide) (by decide)

/-- Claim C6 concerns `SearchCache.set` calls that omit the `time` argument.
Python evaluates the default `datetime.now(tz=pytz.utc)` once, at method
definition time, so such calls store the module-load timestamp, not the call
time: a call made at clock 5 stores `default_set_time = 0`, a later call at
clock 9 stores the very same value, contradicting the claimed per-call
freshness. -/
theorem claim_C6 :
    ((emptyCache.setOmittingTime 1 (initial_cache_item "a" 7) 5).getEntry 1).map
        SearchCacheEntry.last_modified = some default_set_time ∧
    (((emptyCache.setOmittingTime 1 (initial_cache_item "a" 7) 5).setOmittingTime 2
          (initial_cache_item "b" 8) 9).getEntry 2).map
        SearchCacheEntry.last_modified = some default_set_time ∧
    (((emptyCache.setOmittingTime 1 (initial_cache_item "a" 7) 5).setOmittingTime 2
          (initial_cache_item "b" 8) 9).getEntry 1).map
        SearchCacheEntry.last_modified = some default_set_time ∧
    default_set_time ≠ 5 ∧ default_set_time ≠ 9 := by
  decide

/-- Claim C1: the target request page is the floor of
`targetDisplayPage * displayPageSize / fetchPageSize` (characterised by the
two floor inequalities); whenever a cached response is present and the
computed request page equals the cached request page, the step issues no
fetch; and in the end-to-end example (`displayPageSize = 5`,
`fetchPageSize = 25`) the initial render plus four "next" clicks issue
exactly one fetch (of 1-based page 1) while the fifth click issues a second
fetch of request page 1 (1-based page 2). -/
theorem claim_C1 :
    (∀ (cache_item : SearchCacheItem) (page_mod : Int),
      (request_page_size : Int) * target_request_page cache_item page_mod ≤
          (cache_item.cur_page + page_mod) * (discord_page_size : Int) ∧
        (cache_item.cur_page + page_mod) * (discord_page_size : Int) <
          (request_page_size : Int) * target_request_page cache_item page_mod +
            (request_page_size : Int)) ∧
    (∀ (cache : SearchCache) (msg_id : Nat) (cache_item : SearchCacheItem)
        (page_mod : Int) (fetch : Int → FetchResponse) (now : Nat)
        (r : SearchResponse),
      cache_item.response_data = some r →
      target_request_page cache_item page_mod = cache_item.request_page →
      (search_from_cache cache msg_id cache_item page_mod fetch now).fetch_calls =
        []) ∧
    c1_step0.fetch_calls = [1] ∧
    c1_s1.2.map StepResult.fetch_calls = some [] ∧
    c1_s2.2.map StepResult.fetch_calls = some [] ∧
    c1_s3.2.map StepResult.fetch_calls = some [] ∧
    c1_s4.2.map StepResult.fetch_calls = some [] ∧
    c1_s5.2.map StepResult.fetch_calls = some [2] := by
  refine ⟨?_, ?_, by decide, by decide, by decide, by decide, by decide, by decide⟩
  · intro cache_item page_mod
    have hq : target_request_page cache_item page_mod =
        ((cache_item.cur_page + page_mod) * (discord_page_size : Int)) /
          (request_page_size : Int) := by
      unfold target_request_page
      exact Int.fdiv_eq_ediv _ (by norm_num [request_page_size, discord_page_size])
    rw [hq]
    simp only [discord_page_size, request_page_size]
    constructor
    · omega
    · omega
  · intro cache msg_id cache_item page_mod fetch now r hr heq
    unfold search_from_cache
    rw [effective_response_cached fetch hr heq]
    exact render_step_fetch_calls _ _ _ _ _ _ _ _

/-- Witness for C1's cache-hit clause at a concrete input: display page 1 →
2 stays inside fetch window 0, so no fetch is issued. -/
theorem claim_C1_witness :
    (search_from_cache emptyCache 1
        { query := "hello"
          cur_page := 1
          discord_user_id := 42
          response_data := some { count := 100, results := [] }
          request_page := 0 }
        1 c1_fetch 0).fetch_calls = [] :=
  claim_C1.2.1 emptyCache 1
    { query := "hello"
      cur_page := 1
      discord_user_id := 42
      response_data := some { count := 100, results := [] }
      request_page := 0 }
    1 c1_fetch 0 { count := 100, results := [] } rfl (by decide)

/-- Claim C4: for page sizes with `displayPageSize ∣ fetchPageSize` (both
positive) and any non-negative target display page, the slice start
`displayOffset - floor(displayOffset / fetchPageSize) * fetchPageSize` and
the slice end `sliceStart + displayPageSize` lie within `[0, fetchPageSize]`;
the controller's slice is exactly the window `[sliceStart, sliceStart +
displayPageSize)` of the fetched results, so on a full fetched window of
`fetchPageSize` records the slice always has `displayPageSize` elements
(no out-of-bounds access); and item `i` of the slice is rendered with
1-based running index `displayOffset + i + 1`. -/
theorem claim_C4 :
    (∀ dps rps d : Int, 0 ≤ d → 0 < dps → dps ∣ rps → 0 < rps →
      0 ≤ slice_start dps rps d ∧ slice_start dps rps d + dps ≤ rps) ∧
    (∀ (results : List TranscriptionResult) (d : Int),
      page_slice results d
          ((d * (discord_page_size : Int)).fdiv (request_page_size : Int)) =
        (results.drop
            (slice_start (discord_page_size : Int) (request_page_size : Int)
              d).toNat).take discord_page_size) ∧
    (∀ (results : List TranscriptionResult) (d : Int), 0 ≤ d →
      results.length = request_page_size →
      (page_slice results d
          ((d * (discord_page_size : Int)).fdiv
            (request_page_size : Int))).length = discord_page_size) ∧
    (∀ (len : Nat) (d : Int) (i : Nat), i < len →
      (page_nums len d)[i]? =
        some (d * (discord_page_size : Int) + (i : Int) + 1)) := by
  have key : ∀ dps rps d : Int, 0 ≤ d → 0 < dps → dps ∣ rps → 0 < rps →
      0 ≤ slice_start dps rps d ∧ slice_start dps rps d + dps ≤ rps := by
    intro dps rps d _ hdps hdvd hrps
    have hmod : slice_start dps rps d = (d * dps) % rps := by
      unfold slice_start
      rw [Int.fdiv_eq_ediv _ (le_of_lt hrps), Int.emod_def]
      ring
    have h0 : 0 ≤ (d * dps) % rps := Int.emod_nonneg _ (ne_of_gt hrps)
    have hlt : (d * dps) % rps < rps := Int.emod_lt_of_pos _ hrps
    obtain ⟨k, hk⟩ := hdvd
    have hdvd_mod : dps ∣ (d * dps) % rps := by
      rw [Int.emod_def]
      exact dvd_sub (dvd_mul_left dps d)
        (Dvd.dvd.mul_right ⟨k, hk⟩ ((d * dps) / rps))
    obtain ⟨m, hm⟩ := hdvd_mod
    refine ⟨hmod ▸ h0, ?_⟩
    rw [hmod, hm, hk]
    rw [hm, hk] at hlt
    have hmk : m < k := lt_of_mul_lt_mul_left hlt (le_of_lt hdps)
    have : dps * (m + 1) ≤ dps * k :=
      mul_le_mul_of_nonneg_left (by omega) (le_of_lt hdps)
    linarith
  refine ⟨key, fun results d => rfl, ?_, ?_⟩
  · intro results d hd hlen
    have hps : page_slice results d
        ((d * (discord_page_size : Int)).fdiv (request_page_size : Int)) =
        (results.drop
            (slice_start (discord_page_size : Int) (request_page_size : Int)
              d).toNat).take discord_page_size := rfl
    have hb := key (discord_page_size : Int) (request_page_size : Int) d hd
      (by norm_num [discord_page_size]) (by norm_num [discord_page_size, request_page_size])
      (by norm_num [request_page_size, discord_page_size])
    rw [hps, List.length_take, List.length_drop, hlen]
    simp only [discord_page_size, request_page_size] at hb ⊢
    omega
  · intro len d i hi
    unfold page_nums
    rw [List.getElem?_map, List.getElem?_range hi]
    rfl

/-- Witness for C4's bound clause at a concrete input: display page 7 with
the source's page sizes 5 and 25. -/
theorem claim_C4_witness :
    0 ≤ slice_start 5 25 7 ∧ slice_start 5 25 7 + 5 ≤ 25 :=
  claim_C4.1 5 25 7 (by decide) (by decide) (by norm_num) (by decide)

/-- Counterexample to claim C7 as stated: on an initial `/search hello`
submission (message 3, empty cache, successful fetch with 7 results) no
cache entry with an absent `cachedResponse` is ever written.  The cache
holds nothing at submission time, and the single write performed by the
command stores an entry whose `cachedResponse` is PRESENT. -/
theorem claim_C7_counterexample :
    emptyCache.get 3 = none ∧
    ((search_command emptyCache 3 "hello" 42 c7_fetch 0).cache.get 3).map
      (fun it => it.response_data.isSome) = some true := by
  decide

/-- Claim C7 as amended: on initial query submission the command only builds
a LOCAL initial cache item with `cachedResponse` absent (and display page 0);
the first write of a cache entry for the result message happens inside the
first pagination step, after a successful non-empty fetch, and stores the
fetched response (`cachedResponse` present). -/
theorem claim_C7 (query : String) (author_id : Nat) (cache : SearchCache)
    (msg_id : Nat) (fetch : Int → FetchResponse) (now : Nat)
    (hroom : cache.cache.length < cache.capacity)
    (hok : (fetch 1).status_code = 200)
    (hcount : (fetch 1).data.count ≠ 0) :
    (initial_cache_item query author_id).response_data = none ∧
    (search_command cache msg_id query author_id fetch now).cache.get msg_id =
      some { query := query
             cur_page := 0
             discord_user_id := author_id
             response_data := some (fetch 1).data
             request_page := 0 } := by
  refine ⟨rfl, ?_⟩
  have harg : target_request_page (initial_cache_item query author_id) 0 = 0 := rfl
  have he : effective_response (initial_cache_item query author_id) 0 fetch =
      (.ok (fetch 1).data, [1]) := by
    have hcond : (initial_cache_item query author_id).response_data = none ∨
        target_request_page (initial_cache_item query author_id) 0 ≠
          (initial_cache_item query author_id).request_page := Or.inl rfl
    unfold effective_response
    rw [if_pos hcond, harg, show ((0 : Int) + 1) = 1 from rfl]
    rw [if_neg (by simp [hok])]
  have hstep : (search_command cache msg_id query author_id fetch now).cache =
      cache.set msg_id
        { query := query
          cur_page := 0
          discord_user_id := author_id
          response_data := some (fetch 1).data
          request_page := 0 } now := by
    unfold search_command search_from_cache
    rw [he]
    exact render_step_cache_of_ne_zero _ _ _ _ _ _ _ _ hcount
  rw [hstep]
  exact set_get_self msg_id _ now hroom

/-- Claim C2: starting from an empty cache of any fixed capacity, after every
`set` call of an arbitrary call sequence the number of entries is at most
the capacity (every finite call sequence is the prefix of some sequence, so
quantifying over all sequences and inspecting the final state covers "after
every call"). -/
theorem claim_C2 (capacity : Nat)
    (sets : List (Nat × SearchCacheItem × Nat)) :
    (runSets (SearchCache.mk capacity []) sets).cache.length ≤ capacity := by
  suffices h : ∀ c : SearchCache, c.cache.length ≤ c.capacity →
      (runSets c sets).cache.length ≤ (runSets c sets).capacity ∧
      (runSets c sets).capacity = c.capacity by
    have h2 := h (SearchCache.mk capacity []) (by simp)
    have h3 := h2.1
    rw [h2.2] at h3
    simpa using h3
  induction sets with
  | nil => intro c hc; exact ⟨hc, rfl⟩
  | cons s rest ih =>
    intro c hc
    have hstep : (c.set s.1 s.2.1 s.2.2).cache.length ≤
        (c.set s.1 s.2.1 s.2.2).capacity := by
      rw [set_capacity]
      exact set_length _ _ _ hc
    have hrest := ih (c.set s.1 s.2.1 s.2.2) hstep
    refine ⟨hrest.1, ?_⟩
    show (runSets (c.set s.1 s.2.1 s.2.2) rest).capacity = c.capacity
    rw [hrest.2, set_capacity]

/-- Witness for the amended C7 at a concrete input. -/
theorem claim_C7_witness :
    (initial_cache_item "hello" 42).response_data = none ∧
    (search_command emptyCache 3 "hello" 42 c7_fetch 0).cache.get 3 =
      some { query := "hello"
             cur_page := 0
             discord_user_id := 42
             response_data := some { count := 7, results := [] }
             request_page := 0 } :=
  claim_C7 "hello" 42 emptyCache 3 c7_fetch 0 (by decide) rfl (by decide)

/-- Claim C3: for any capacity, inserting `capacity + 1` distinct keys with
strictly increasing timestamps into an empty cache evicts exactly the key
inserted with the smallest timestamp (the first one); that key is absent
afterwards and all other keys are still present. -/
theorem claim_C3 (cap : Nat) (q : Nat × Nat) (rest : List (Nat × Nat))
    (hlen : rest.length = cap)
    (hkeys : ((q :: rest).map Prod.fst).Nodup)
    (htimes : ((q :: rest).map Prod.snd).Pairwise (· < ·)) :
    (runSets (SearchCache.mk cap []) ((q :: rest).map toSetCall)).get q.1 =
      none ∧
    ∀ p ∈ rest,
      (runSets (SearchCache.mk cap []) ((q :: rest).map toSetCall)).get p.1 =
        some dummy_item := by
  have hne : (q :: rest) ≠ [] := List.cons_ne_nil q rest
  have hsplit : (q :: rest).dropLast ++ [(q :: rest).getLast hne] = q :: rest :=
    List.dropLast_append_getLast hne
  have hdllen : (q :: rest).dropLast.length = cap := by
    simp [List.length_dropLast, hlen]
  have hstage1 :
      runSets (SearchCache.mk cap []) ((q :: rest).dropLast.map toSetCall) =
        SearchCache.mk cap ((q :: rest).dropLast.map toEntry) := by
    have hn : (((SearchCache.mk cap [] : SearchCache).cache.map Prod.fst) ++
        ((q :: rest).dropLast.map Prod.fst)).Nodup := by
      simpa using
        List.Nodup.sublist
          (List.Sublist.map Prod.fst (List.dropLast_sublist (q :: rest))) hkeys
    have hl : (SearchCache.mk cap [] : SearchCache).cache.length +
        (q :: rest).dropLast.length ≤
        (SearchCache.mk cap [] : SearchCache).capacity := by
      show 0 + (q :: rest).dropLast.length ≤ cap
      omega
    simpa using runSets_fresh (q :: rest).dropLast (SearchCache.mk cap []) hn hl
  have hkeys_split : (q :: rest).map Prod.fst =
      (q :: rest).dropLast.map Prod.fst ++ [((q :: rest).getLast hne).1] := by
    conv_lhs => rw [← hsplit]
    simp [List.map_append]
  have hlast_fresh : ∀ p ∈ (q :: rest).dropLast.map toEntry,
      p.1 ≠ ((q :: rest).getLast hne).1 := by
    intro p hp
    obtain ⟨x, hx, rfl⟩ := List.mem_map.mp hp
    have hnodup2 : ((q :: rest).dropLast.map Prod.fst ++
        [((q :: rest).getLast hne).1]).Nodup := by
      rw [← hkeys_split]
      exact hkeys
    have hdisj := (List.nodup_append.mp hnodup2).2.2
    intro hcontra
    refine hdisj (List.mem_map_of_mem Prod.fst hx) ?_
    have : x.1 = ((q :: rest).getLast hne).1 := hcontra
    rw [this]
    exact List.mem_cons_self _ []
  have hmapsplit : (q :: rest).dropLast.map toEntry ++
      [(((q :: rest).getLast hne).1,
        { last_modified := ((q :: rest).getLast hne).2
          element := dummy_item })] = (q :: rest).map toEntry := by
    conv_rhs => rw [← hsplit]
    simp [List.map_append, toEntry]
  have holdest : oldestEntry ((q :: rest).map toEntry) = some (toEntry q) := by
    simp only [List.map_cons]
    apply oldestEntry_head
    intro x hx
    obtain ⟨y, hy, rfl⟩ := List.mem_map.mp hx
    have htimes2 := htimes
    rw [List.map_cons] at htimes2
    have hpair := (List.pairwise_cons.mp htimes2).1
    exact hpair y.2 (List.mem_map_of_mem Prod.snd hy)
  have hset : (SearchCache.mk cap ((q :: rest).dropLast.map toEntry)).set
      ((q :: rest).getLast hne).1 dummy_item ((q :: rest).getLast hne).2 =
      SearchCache.mk cap (rest.map toEntry) := by
    unfold SearchCache.set
    rw [dictSet_fresh hlast_fresh]
    show SearchCache.clean (SearchCache.mk cap
      ((q :: rest).dropLast.map toEntry ++
        [(((q :: rest).getLast hne).1,
          { last_modified := ((q :: rest).getLast hne).2
            element := dummy_item })])) = SearchCache.mk cap (rest.map toEntry)
    rw [hmapsplit]
    unfold SearchCache.clean
    rw [if_pos (by simp [hlen])]
    rw [holdest]
    show SearchCache.mk cap
        (((q :: rest).map toEntry).eraseP (fun x => x.1 == (toEntry q).1)) =
      SearchCache.mk cap (rest.map toEntry)
    simp only [List.map_cons]
    rw [List.eraseP_cons_of_pos (by simp)]
  have hfinal : runSets (SearchCache.mk cap []) ((q :: rest).map toSetCall) =
      SearchCache.mk cap (rest.map toEntry) := by
    conv_lhs => rw [← hsplit]
    rw [List.map_append, runSets_append, hstage1]
    show (SearchCache.mk cap ((q :: rest).dropLast.map toEntry)).set
        ((q :: rest).getLast hne).1 dummy_item ((q :: rest).getLast hne).2 =
      SearchCache.mk cap (rest.map toEntry)
    exact hset
  rw [hfinal]
  constructor
  · apply get_toEntry_of_not_mem
    have hkc := hkeys
    rw [List.map_cons] at hkc
    exact (List.nodup_cons.mp hkc).1
  · intro p hp
    exact get_toEntry_of_mem (List.mem_map_of_mem Prod.fst hp)

/-- Witness for C3 at a concrete input: capacity 1, keys 5 and 6 inserted at
times 10 and 11; key 5 is evicted. -/
theorem claim_C3_witness :
    (runSets (SearchCache.mk 1 [])
      ([((5 : Nat), (10 : Nat)), (6, 11)].map toSetCall)).get 5 = none :=
  (claim_C3 1 (5, 10) [(6, 11)] rfl (by decide) (by decide)).1

/-- Counterexample to claim C8 as stated: the remote dataset may shrink
between fetches.  Submit a query while the API reports 100 results (last
display page 19), then click "last": the controller fetches request page 3,
the API now reports only 6 results, and the stored entry has
`currentDisplayPage = 19` while `ceil(6 / 5) - 1 = 1`, violating the claimed
bound in a state reachable through the two public operations. -/
theorem claim_C8_counterexample :
    (runOps emptyCache c8_ops).get 1 =
      some { query := "q"
             cur_page := 19
             discord_user_id := 42
             response_data := some { count := 6, results := [] }
             request_page := 3 } ∧
    ¬((19 : Int) ≤ (ceil_div 6 discord_page_size : Int) - 1) := by
  constructor
  · decide
  · decide

/-- Claim C8 as amended: IF every successful fetch during the operation
sequence reports the same total count `N` (a stable remote dataset), then in
every reachable cache state each entry has a present cached response with
count `N ≥ 1` and a `currentDisplayPage` within
`[0, ceil(N / displayPageSize) - 1]`.  (Before any fetch no cache entry
exists at all — the initial display page lives only in a local item, see
claim C7.) -/
theorem claim_C8 (N : Nat) (ops : List Op)
    (hN : ∀ op ∈ ops, (Op.response op).status_code = 200 →
      (Op.response op).data.count = N) :
    ∀ k e, (k, e) ∈ (runOps emptyCache ops).cache → entry_ok N e :=
  runOps_cache_ok ops emptyCache
    (fun _ _ h => absurd h (List.not_mem_nil _)) hN

/-- Witness for the amended C8 at a concrete input: a single submission whose
fetch reports 100 results leaves one entry, which satisfies the invariant. -/
theorem claim_C8_witness :
    entry_ok 100
      { last_modified := 3
        element := { query := "hello"
                     cur_page := 0
                     discord_user_id := 42
                     response_data := some { count := 100, results := [] }
                     request_page := 0 } } :=
  claim_C8 100
    [.search 1 "hello" 42
      { status_code := 200, data := { count := 100, results := [] } } 3]
    (by decide) 1
    { last_modified := 3
      element := { query := "hello"
                   cur_page := 0
                   discord_user_id := 42
                   response_data := some { count := 100, results := [] }
                   request_page := 0 } }
    (by decide)

end Buttercup
